import Mathlib

/-!
Shallow embedding of the forecasting / decomposition core of `app.py`
(Stock-Analyser dashboard).  Real values are modelled as exact rationals;
the pandas close column is a `List (Option ℚ)` where `none` is a missing
value; dates are day numbers (`ℕ`).  The external SARIMAX library fit is
modelled abstractly: it either raises (`none`) or returns the per-step
predicted mean together with the half-width `z·se` of the returned 95%
confidence interval (`some`).
-/

namespace StockAnalyser

/-- Minimum of a list, as `pandas.Series.min` on a non-empty series (the
`[]` case is never reached by the code, which guards on the length). -/
def listMin : List ℚ → ℚ
  | [] => 0
  | x :: xs => xs.foldl min x

/-- Embedding of line 310, `close_series.dropna()`: missing values are
removed, the remaining values kept in order. -/
def dropna (raw : List (Option ℚ)) : List ℚ := raw.filterMap id

/-- Embedding of the positivity shift, lines 318-319:
`if len(close_series) > 0 and np.any(close_series.values <= 0):
close_series = close_series - close_series.min() + 1`. -/
def sanitizeShift (xs : List ℚ) : List ℚ :=
  if 0 < xs.length ∧ (xs.any fun x => decide (x ≤ 0)) = true then
    xs.map fun x => x - listMin xs + 1
  else xs

/-- The sanitized close series handed to decomposition and forecasting:
the close column with missing values dropped, then the positivity shift. -/
def close_series (raw : List (Option ℚ)) : List ℚ := sanitizeShift (dropna raw)

/-- Embedding of line 168, `series[-10:].mean()`.  On an empty series pandas
yields NaN; rationals have no NaN and `0 / 0 = 0` here. -/
def trailingMean (series : List ℚ) : ℚ :=
  let t := series.drop (series.length - 10)
  t.sum / (t.length : ℚ)

/-- Point forecast plus confidence bounds: the value columns of `future_df`
(lines 399-404). -/
structure ForecastTriple where
  predicted : List ℚ
  lower : List ℚ
  upper : List ℚ
deriving DecidableEq

/-- Abstract outcome of a successful `SARIMAX(...).fit().get_forecast(steps)`
call of the external library: the predicted mean per step and the half-width
`z·se` of the returned 95% interval (`conf_int()` is `mean ∓ z·se`). -/
structure SarimaxFit where
  predicted_mean : List ℚ
  halfWidth : List ℚ
deriving DecidableEq

/-- Embedding of `fit_sarima_model` (lines 137-174).  The library fit is an
explicit parameter: `some f` is a successful fit (the `try` branch), `none`
a raised exception (the `except` branch, lines 165-174).  The returned
`Bool` records whether the primary path produced the result (in the source
this is `sarima_model is not None`). -/
def fit_sarima_model (fitRes : Option SarimaxFit) (series : List ℚ)
    (forecast_days : ℕ) : ForecastTriple × Bool :=
  match fitRes with
  | some f =>
      ({ predicted := f.predicted_mean,
         lower := List.zipWith (fun m h => m - h) f.predicted_mean f.halfWidth,
         upper := List.zipWith (fun m h => m + h) f.predicted_mean f.halfWidth },
       true)
  | none =>
      let last_values := trailingMean series
      let forecast_values := List.replicate forecast_days last_values
      ({ predicted := forecast_values,
         lower := forecast_values.map fun v => v * 0.95,
         upper := forecast_values.map fun v => v * 1.05 },
       false)

/-- Embedding of `pd.date_range(start, periods=n)` with dates as day
numbers: `n` consecutive calendar days starting at `start`. -/
def date_range (start periods : ℕ) : List ℕ :=
  (List.range periods).map fun i => start + i

/-- Embedding of line 397:
`pd.date_range(last_date + timedelta(days=1), periods=30)`. -/
def future_dates (last_date : ℕ) : List ℕ := date_range (last_date + 1) 30

/-- Embedding of line 447, `float(future_df["Predicted Close"].iloc[-1])`. -/
def last_pred_price (t : ForecastTriple) : ℚ := t.predicted.getLast?.getD 0

/-- Embedding of line 448,
`((last_pred_price - current_price_val) / current_price_val) * 100`. -/
def pred_change_val (lastPred current : ℚ) : ℚ :=
  ((lastPred - current) / current) * 100

/-- Embedding of line 451,
`((future_df["Upper CI"].iloc[-1] - future_df["Lower CI"].iloc[-1]) / last_pred_price) * 100`. -/
def confidence_width (t : ForecastTriple) : ℚ :=
  ((t.upper.getLast?.getD 0 - t.lower.getLast?.getD 0) / last_pred_price t) * 100

/-- Embedding of lines 452-457, the confidence bucket. -/
def confidence_level (w : ℚ) : String :=
  if w < 10 then "High" else if w < 20 then "Medium" else "Low"

/-- Outcome of one run of the script body on a downloaded non-empty table. -/
structure PipelineResult where
  decompRan : Bool
  decompError : Option (ℕ × ℕ)
  forecast : Option (ForecastTriple × Bool)
  forecastDates : Option (List ℕ)
  insufficientForecastData : Bool
deriving DecidableEq

/-- Embedding of the script body from line 306 on: sanitize the close
column, gate decomposition on `len(close_series) < 60` (line 323, warning
with required 60 and the actual length on line 324), gate the SARIMA
section on `len(data_reset) < 30` (line 388) — the raw row count, not the
sanitized length — then build the forecast and the future dates. -/
def runPipeline (fitRes : Option SarimaxFit) (raw : List (Option ℚ))
    (last_date : ℕ) : PipelineResult :=
  let cs := close_series raw
  let dRan := decide (¬ cs.length < 60)
  let dErr := if cs.length < 60 then some (60, cs.length) else none
  if raw.length < 30 then
    { decompRan := dRan, decompError := dErr, forecast := none,
      forecastDates := none, insufficientForecastData := true }
  else
    { decompRan := dRan, decompError := dErr,
      forecast := some (fit_sarima_model fitRes cs 30),
      forecastDates := some (future_dates last_date),
      insufficientForecastData := false }

/-- The ForecastResult invariant, elementwise `lower ≤ predicted ≤ upper`
(`List.Forall₂` also forces the three columns to have equal lengths). -/
def boundsOK (t : ForecastTriple) : Prop :=
  List.Forall₂ (· ≤ ·) t.lower t.predicted ∧
  List.Forall₂ (· ≤ ·) t.predicted t.upper

/-! Helper lemmas. -/

lemma foldl_min_le_init (a : ℚ) (xs : List ℚ) : xs.foldl min a ≤ a := by
  induction xs generalizing a with
  | nil => simp
  | cons y ys ih => exact le_trans (ih (min a y)) (min_le_left a y)

lemma foldl_min_le_mem (a : ℚ) (xs : List ℚ) : ∀ x ∈ xs, xs.foldl min a ≤ x := by
  induction xs generalizing a with
  | nil => simp
  | cons y ys ih =>
    intro x hx
    rcases List.mem_cons.mp hx with rfl | hx
    · exact le_trans (foldl_min_le_init (min a x) ys) (min_le_right a x)
    · exact ih (min a y) x hx

lemma listMin_le (l : List ℚ) (x : ℚ) (hx : x ∈ l) : listMin l ≤ x := by
  cases l with
  | nil => cases hx
  | cons a as =>
    rcases List.mem_cons.mp hx with rfl | hx
    · exact foldl_min_le_init x as
    · exact foldl_min_le_mem a as x hx

lemma sanitizeShift_pos (xs : List ℚ) : ∀ y ∈ sanitizeShift xs, 0 < y := by
  intro y hy
  unfold sanitizeShift at hy
  split at hy
  · rename_i hcond
    obtain ⟨x, hx, rfl⟩ := List.mem_map.mp hy
    have := listMin_le xs x hx
    linarith
  · rename_i hcond
    by_contra hle
    push_neg at hle
    have hmem : (xs.any fun x => decide (x ≤ 0)) = true :=
      List.any_eq_true.mpr ⟨y, hy, decide_eq_true hle⟩
    exact hcond ⟨List.length_pos.mpr (List.ne_nil_of_mem hy), hmem⟩

lemma close_series_pos (raw : List (Option ℚ)) :
    ∀ y ∈ close_series raw, 0 < y :=
  sanitizeShift_pos (dropna raw)

lemma trailingMean_nonneg (series : List ℚ) (h : ∀ x ∈ series, 0 ≤ x) :
    0 ≤ trailingMean series := by
  unfold trailingMean
  have hsum : 0 ≤ (series.drop (series.length - 10)).sum := by
    refine List.sum_nonneg ?_
    intro x hx
    exact h x ((List.drop_sublist _ _).mem hx)
  positivity

lemma forall2_le_replicate {a b : ℚ} (hab : a ≤ b) (n : ℕ) :
    List.Forall₂ (· ≤ ·) (List.replicate n a) (List.replicate n b) := by
  induction n with
  | zero => simp
  | succ n ih =>
    simp only [List.replicate_succ]
    exact List.Forall₂.cons hab ih

lemma forall2_zipWith_sub_le (ms hs : List ℚ) (hlen : hs.length = ms.length)
    (hnn : ∀ h ∈ hs, 0 ≤ h) :
    List.Forall₂ (· ≤ ·) (List.zipWith (fun m h => m - h) ms hs) ms := by
  induction ms generalizing hs with
  | nil => simp
  | cons m ms ih =>
    cases hs with
    | nil => simp at hlen
    | cons h hs =>
      simp only [List.zipWith_cons_cons]
      refine List.Forall₂.cons ?_ (ih hs (by simpa using hlen) ?_)
      · have : 0 ≤ h := hnn h (List.mem_cons_self h hs)
        linarith
      · intro x hx
        exact hnn x (List.mem_cons_of_mem h hx)

lemma forall2_le_zipWith_add (ms hs : List ℚ) (hlen : hs.length = ms.length)
    (hnn : ∀ h ∈ hs, 0 ≤ h) :
    List.Forall₂ (· ≤ ·) ms (List.zipWith (fun m h => m + h) ms hs) := by
  induction ms generalizing hs with
  | nil => simp
  | cons m ms ih =>
    cases hs with
    | nil => simp at hlen
    | cons h hs =>
      simp only [List.zipWith_cons_cons]
      refine List.Forall₂.cons ?_ (ih hs (by simpa using hlen) ?_)
      · have : 0 ≤ h := hnn h (List.mem_cons_self h hs)
        linarith
      · intro x hx
        exact hnn x (List.mem_cons_of_mem h hx)

lemma getLast?_replicate_succ (n : ℕ) (a : ℚ) :
    (List.replicate (n + 1) a).getLast? = some a := by
  rw [List.replicate_succ' n a, List.getLast?_concat]

lemma sanitizeShift_length (xs : List ℚ) :
    (sanitizeShift xs).length = xs.length := by
  unfold sanitizeShift
  split <;> simp

lemma dropna_length_of_nomiss (raw : List (Option ℚ))
    (h : ∀ x ∈ raw, x ≠ none) : (dropna raw).length = raw.length := by
  induction raw with
  | nil => rfl
  | cons a as ih =>
    cases a with
    | none => exact absurd rfl (h none (List.mem_cons_self _ _))
    | some q =>
      have ih' := ih fun x hx => h x (List.mem_cons_of_mem _ hx)
      simp only [dropna, List.filterMap_cons, id] at ih' ⊢
      simpa using ih'

lemma close_series_length_of_nomiss (raw : List (Option ℚ))
    (h : ∀ x ∈ raw, x ≠ none) : (close_series raw).length = raw.length := by
  rw [close_series, sanitizeShift_length, dropna_length_of_nomiss raw h]

lemma runPipeline_decompRan (fitRes : Option SarimaxFit)
    (raw : List (Option ℚ)) (d : ℕ) :
    (runPipeline fitRes raw d).decompRan
      = decide (¬ (close_series raw).length < 60) := by
  unfold runPipeline
  split <;> rfl

lemma runPipeline_decompError (fitRes : Option SarimaxFit)
    (raw : List (Option ℚ)) (d : ℕ) :
    (runPipeline fitRes raw d).decompError
      = if (close_series raw).length < 60
        then some (60, (close_series raw).length) else none := by
  unfold runPipeline
  split <;> rfl

lemma runPipeline_forecast (fitRes : Option SarimaxFit)
    (raw : List (Option ℚ)) (d : ℕ) :
    (runPipeline fitRes raw d).forecast
      = if raw.length < 30 then none
        else some (fit_sarima_model fitRes (close_series raw) 30) := by
  unfold runPipeline
  split <;> rfl

lemma runPipeline_forecastDates (fitRes : Option SarimaxFit)
    (raw : List (Option ℚ)) (d : ℕ) :
    (runPipeline fitRes raw d).forecastDates
      = if raw.length < 30 then none else some (future_dates d) := by
  unfold runPipeline
  split <;> rfl

lemma runPipeline_insufficient (fitRes : Option SarimaxFit)
    (raw : List (Option ℚ)) (d : ℕ) :
    (runPipeline fitRes raw d).insufficientForecastData
      = decide (raw.length < 30) := by
  unfold runPipeline
  split <;> rename_i h <;> simp [h]

lemma fit_boundsOK (fitRes : Option SarimaxFit) (series : List ℚ) (days : ℕ)
    (hpos : ∀ x ∈ series, 0 ≤ x)
    (hlen : ∀ f ∈ fitRes, f.predicted_mean.length = days)
    (hhw : ∀ f ∈ fitRes, f.halfWidth.length = days)
    (hnn : ∀ f ∈ fitRes, ∀ h ∈ f.halfWidth, 0 ≤ h) :
    boundsOK (fit_sarima_model fitRes series days).1 ∧
    (fit_sarima_model fitRes series days).1.predicted.length = days := by
  cases fitRes with
  | none =>
    have hv : 0 ≤ trailingMean series := trailingMean_nonneg series hpos
    refine ⟨⟨?_, ?_⟩, ?_⟩
    · simp only [fit_sarima_model, boundsOK, List.map_replicate]
      exact forall2_le_replicate (by linarith) days
    · simp only [fit_sarima_model, boundsOK, List.map_replicate]
      exact forall2_le_replicate (by linarith) days
    · simp [fit_sarima_model]
  | some f =>
    have h1 : f.predicted_mean.length = days := hlen f rfl
    have h2 : f.halfWidth.length = days := hhw f rfl
    have h3 : ∀ h ∈ f.halfWidth, 0 ≤ h := hnn f rfl
    refine ⟨⟨?_, ?_⟩, h1⟩
    · exact forall2_zipWith_sub_le f.predicted_mean f.halfWidth
        (h2.trans h1.symm) h3
    · exact forall2_le_zipWith_add f.predicted_mean f.halfWidth
        (h2.trans h1.symm) h3

/-! Claim theorems. -/

/-- C1: whenever the primary SARIMA fit raises (the `except` branch),
`fit_sarima_model` returns the trailing-10 mean repeated for all
`forecast_days` steps, with lower bound exactly `forecast * 0.95` and upper
bound exactly `forecast * 1.05` at every step; in particular a constant
series of value 100 over 40 points yields `[100]*30`, `[95]*30`, `[105]*30`. -/
theorem fallback_forecast_spec (series : List ℚ) (days : ℕ) :
    ((fit_sarima_model none series days).1.predicted
        = List.replicate days (trailingMean series) ∧
      (fit_sarima_model none series days).1.lower
        = List.replicate days (trailingMean series * 0.95) ∧
      (fit_sarima_model none series days).1.upper
        = List.replicate days (trailingMean series * 1.05) ∧
      (fit_sarima_model none series days).2 = false) ∧
    ((fit_sarima_model none (List.replicate 40 (100 : ℚ)) 30).1.predicted
        = List.replicate 30 (100 : ℚ) ∧
      (fit_sarima_model none (List.replicate 40 (100 : ℚ)) 30).1.lower
        = List.replicate 30 (95 : ℚ) ∧
      (fit_sarima_model none (List.replicate 40 (100 : ℚ)) 30).1.upper
        = List.replicate 30 (105 : ℚ)) := by
  constructor
  · refine ⟨rfl, ?_, ?_, rfl⟩ <;> simp [fit_sarima_model, List.map_replicate]
  · have h100 : trailingMean (List.replicate 40 (100 : ℚ)) = 100 := by
      simp only [trailingMean, List.length_replicate, List.drop_replicate,
        List.sum_replicate, nsmul_eq_mul]
      norm_num
    refine ⟨?_, ?_, ?_⟩ <;>
      simp only [fit_sarima_model, h100, List.map_replicate] <;> norm_num

/-- C3: on a non-empty cleaned series containing a non-positive value, the
sanitization shift adds `min * (-1) + 1` to every value; afterwards every
value is strictly positive and strict order between any two positions is
preserved. -/
theorem sanitize_shift_correct (xs : List ℚ) (hne : xs ≠ [])
    (hnp : ∃ x ∈ xs, x ≤ 0) :
    sanitizeShift xs = xs.map (fun x => x + (listMin xs * (-1) + 1)) ∧
    (∀ y ∈ sanitizeShift xs, 0 < y) ∧
    (∀ i j, i < xs.length → j < xs.length →
      ((sanitizeShift xs).getD i 0 < (sanitizeShift xs).getD j 0 ↔
        xs.getD i 0 < xs.getD j 0)) := by
  obtain ⟨x0, hx0, hx0le⟩ := hnp
  have hcond : 0 < xs.length ∧ (xs.any fun x => decide (x ≤ 0)) = true :=
    ⟨List.length_pos.mpr hne, List.any_eq_true.mpr ⟨x0, hx0, decide_eq_true hx0le⟩⟩
  have hfun : (fun x : ℚ => x - listMin xs + 1)
      = fun x : ℚ => x + (listMin xs * (-1) + 1) := by
    funext x; ring
  have heq : sanitizeShift xs = xs.map fun x => x + (listMin xs * (-1) + 1) := by
    rw [sanitizeShift, if_pos hcond, hfun]
  refine ⟨heq, sanitizeShift_pos xs, ?_⟩
  intro i j hi hj
  have hgi : (sanitizeShift xs).getD i 0
      = xs.getD i 0 + (listMin xs * (-1) + 1) := by
    rw [heq, List.getD_eq_getElem?_getD, List.getElem?_map,
      List.getElem?_eq_getElem hi, List.getD_eq_getElem?_getD,
      List.getElem?_eq_getElem hi]
    rfl
  have hgj : (sanitizeShift xs).getD j 0
      = xs.getD j 0 + (listMin xs * (-1) + 1) := by
    rw [heq, List.getD_eq_getElem?_getD, List.getElem?_map,
      List.getElem?_eq_getElem hj, List.getD_eq_getElem?_getD,
      List.getElem?_eq_getElem hj]
    rfl
  rw [hgi, hgj]
  constructor <;> intro h <;> linarith

/-- Witness for C3 at the concrete input `[-1, 2]`. -/
theorem sanitize_shift_correct_witness :
    sanitizeShift [(-1 : ℚ), 2]
        = [(-1 : ℚ), 2].map (fun x => x + (listMin [(-1 : ℚ), 2] * (-1) + 1)) ∧
    (∀ y ∈ sanitizeShift [(-1 : ℚ), 2], 0 < y) ∧
    (∀ i j, i < ([(-1 : ℚ), 2]).length → j < ([(-1 : ℚ), 2]).length →
      ((sanitizeShift [(-1 : ℚ), 2]).getD i 0
          < (sanitizeShift [(-1 : ℚ), 2]).getD j 0 ↔
        ([(-1 : ℚ), 2]).getD i 0 < ([(-1 : ℚ), 2]).getD j 0)) :=
  sanitize_shift_correct [(-1 : ℚ), 2] (by decide) ⟨-1, by decide, by decide⟩

/-- C2: every ForecastResult the pipeline produces — primary or fallback
path — satisfies `lower[i] ≤ predicted[i] ≤ upper[i]` at every step and has
exactly the requested horizon of 30 steps.  The primary path relies on the
library contract of `get_forecast(steps)`: it returns `steps` predicted
means and `conf_int()` half-widths `z·se ≥ 0`. -/
theorem forecast_result_invariant (fitRes : Option SarimaxFit)
    (raw : List (Option ℚ)) (d : ℕ)
    (hlen : ∀ f ∈ fitRes, f.predicted_mean.length = 30)
    (hhw : ∀ f ∈ fitRes, f.halfWidth.length = 30)
    (hnn : ∀ f ∈ fitRes, ∀ h ∈ f.halfWidth, 0 ≤ h) :
    ∀ t flag, (runPipeline fitRes raw d).forecast = some (t, flag) →
      boundsOK t ∧ t.predicted.length = 30 := by
  intro t flag hf
  rw [runPipeline_forecast] at hf
  split at hf
  · exact absurd hf (by simp)
  · have heq := Option.some.inj hf
    have ht : t = (fit_sarima_model fitRes (close_series raw) 30).1 := by
      rw [heq]
    rw [ht]
    exact fit_boundsOK fitRes (close_series raw) 30
      (fun x hx => le_of_lt (close_series_pos raw x hx)) hlen hhw hnn

/-- Witness for C2 at the concrete raw column of 30 valid rows of value 1,
with the fit raising (fallback path). -/
theorem forecast_result_invariant_witness :
    boundsOK (fit_sarima_model none
        (close_series (List.replicate 30 (some (1 : ℚ)))) 30).1 ∧
    (fit_sarima_model none
        (close_series (List.replicate 30 (some (1 : ℚ)))) 30).1.predicted.length
      = 30 :=
  forecast_result_invariant none (List.replicate 30 (some (1 : ℚ))) 0
    (by simp) (by simp) (by simp)
    (fit_sarima_model none (close_series (List.replicate 30 (some (1 : ℚ)))) 30).1
    false rfl

/-- C4 counterexample: a raw table of 30 rows whose last 5 closes are
missing has a sanitized series of only 25 points, yet the SARIMA section
still runs — the gate is `len(data_reset) < 30`, the raw row count. -/
theorem forecast_gate_counterexample :
    (close_series
        (List.replicate 25 (some (1 : ℚ)) ++ List.replicate 5 none)).length
      = 25 ∧
    (runPipeline none
        (List.replicate 25 (some (1 : ℚ)) ++ List.replicate 5 none) 0).forecast.isSome
      = true := by
  constructor
  · decide
  · rw [runPipeline_forecast]
    simp

/-- C4 (amended): the SARIMA section is gated on the raw row count
`len(data_reset)`, not on the sanitized series: forecasting is attempted iff
the raw table has at least 30 rows and the insufficient-data error is
reported iff it has fewer; only when no close value is missing does this
coincide with the sanitized series having at least 30 points. -/
theorem forecast_gate (fitRes : Option SarimaxFit) (raw : List (Option ℚ))
    (d : ℕ) :
    ((runPipeline fitRes raw d).forecast.isSome = true ↔ 30 ≤ raw.length) ∧
    ((runPipeline fitRes raw d).insufficientForecastData = true ↔
      raw.length < 30) ∧
    ((∀ x ∈ raw, x ≠ none) →
      ((runPipeline fitRes raw d).forecast.isSome = true ↔
        30 ≤ (close_series raw).length)) := by
  have hsome : (runPipeline fitRes raw d).forecast.isSome = true ↔
      30 ≤ raw.length := by
    rw [runPipeline_forecast]
    split <;> rename_i h <;> simp <;> omega
  refine ⟨hsome, ?_, ?_⟩
  · rw [runPipeline_insufficient]
    simp
  · intro hnomiss
    rw [hsome, close_series_length_of_nomiss raw hnomiss]

/-- Witness for C4 at a raw table of 30 valid rows. -/
theorem forecast_gate_witness :
    ((runPipeline none (List.replicate 30 (some (1 : ℚ))) 0).forecast.isSome
        = true ↔ 30 ≤ (List.replicate 30 (some (1 : ℚ))).length) ∧
    ((runPipeline none (List.replicate 30 (some (1 : ℚ))) 0).insufficientForecastData
        = true ↔ (List.replicate 30 (some (1 : ℚ))).length < 30) ∧
    ((runPipeline none (List.replicate 30 (some (1 : ℚ))) 0).forecast.isSome
        = true ↔
      30 ≤ (close_series (List.replicate 30 (some (1 : ℚ)))).length) :=
  ⟨(forecast_gate none (List.replicate 30 (some (1 : ℚ))) 0).1,
   (forecast_gate none (List.replicate 30 (some (1 : ℚ))) 0).2.1,
   (forecast_gate none (List.replicate 30 (some (1 : ℚ))) 0).2.2
     (fun x hx => by simp [List.eq_of_mem_replicate hx])⟩

/-- C5: decomposition runs iff the sanitized series has at least
`2 * 30 = 60` points; when shorter, the reported condition carries the
required length 60 and the actual length; and forecasting is independent:
a 45-point series with no missing values skips decomposition while the
forecast is still produced. -/
theorem decomposition_gate (fitRes : Option SarimaxFit)
    (raw : List (Option ℚ)) (d : ℕ) :
    ((runPipeline fitRes raw d).decompRan = true ↔
      2 * 30 ≤ (close_series raw).length) ∧
    ((close_series raw).length < 60 →
      (runPipeline fitRes raw d).decompError
        = some (60, (close_series raw).length)) ∧
    (∀ raw45 : List (Option ℚ), (∀ x ∈ raw45, x ≠ none) →
      raw45.length = 45 →
      (runPipeline fitRes raw45 d).decompRan = false ∧
      (runPipeline fitRes raw45 d).forecast.isSome = true) := by
  refine ⟨?_, ?_, ?_⟩
  · rw [runPipeline_decompRan]
    simp only [decide_eq_true_eq]
    omega
  · intro h
    rw [runPipeline_decompError, if_pos h]
  · intro raw45 hnomiss h45
    have hlen := close_series_length_of_nomiss raw45 hnomiss
    constructor
    · rw [runPipeline_decompRan]
      simp only [decide_eq_false_iff_not, not_not]
      omega
    · rw [runPipeline_forecast, if_neg (by omega)]
      rfl

/-- Witness for C5 at a 45-row table of valid closes. -/
theorem decomposition_gate_witness :
    (runPipeline none (List.replicate 45 (some (1 : ℚ))) 0).decompRan = false ∧
    (runPipeline none (List.replicate 45 (some (1 : ℚ))) 0).forecast.isSome
      = true :=
  (decomposition_gate none (List.replicate 45 (some (1 : ℚ))) 0).2.2
    (List.replicate 45 (some (1 : ℚ)))
    (fun x hx => by simp [List.eq_of_mem_replicate hx]) (by simp)

/-- C6: the future dates are exactly 30 (the horizon) consecutive calendar
days: the first is the day immediately after the last input date and each
subsequent date advances by one calendar day; the pipeline attaches exactly
these dates whenever the forecast section runs. -/
theorem future_dates_calendar (last_date : ℕ) :
    (future_dates last_date).length = 30 ∧
    (∀ i, i < 30 → (future_dates last_date).getD i 0 = last_date + 1 + i) ∧
    (∀ i, i + 1 < 30 →
      (future_dates last_date).getD (i + 1) 0
        = (future_dates last_date).getD i 0 + 1) ∧
    (∀ (fitRes : Option SarimaxFit) (raw : List (Option ℚ)),
      ¬ raw.length < 30 →
      (runPipeline fitRes raw last_date).forecastDates
        = some (future_dates last_date)) := by
  have hget : ∀ i, i < 30 →
      (future_dates last_date).getD i 0 = last_date + 1 + i := by
    intro i hi
    rw [future_dates, date_range, List.getD_eq_getElem?_getD,
      List.getElem?_map, List.getElem?_range hi]
    rfl
  refine ⟨?_, hget, ?_, ?_⟩
  · simp [future_dates, date_range]
  · intro i hi
    rw [hget (i + 1) hi, hget i (by omega)]
    omega
  · intro fitRes raw h
    rw [runPipeline_forecastDates, if_neg h]

/-- Witness for C6 at `last_date = 0` with a 30-row raw table. -/
theorem future_dates_calendar_witness :
    (future_dates 0).length = 30 ∧
    (future_dates 0).getD 0 0 = 0 + 1 + 0 ∧
    (runPipeline none (List.replicate 30 (some (1 : ℚ))) 0).forecastDates
      = some (future_dates 0) :=
  ⟨(future_dates_calendar 0).1,
   (future_dates_calendar 0).2.1 0 (by norm_num),
   (future_dates_calendar 0).2.2.2 none (List.replicate 30 (some (1 : ℚ)))
     (by simp)⟩

/-- C7: the derived summary values are percent change
`(last_pred - current) / current * 100`, confidence width
`(upper[-1] - lower[-1]) / predicted[-1] * 100`, and the bucket is "High"
exactly when the width is < 10, "Medium" exactly when 10 ≤ width < 20 and
"Low" exactly when 20 ≤ width. -/
theorem summary_formulas (t : ForecastTriple) (current w : ℚ) :
    pred_change_val (last_pred_price t) current
      = ((last_pred_price t - current) / current) * 100 ∧
    confidence_width t
      = ((t.upper.getLast?.getD 0 - t.lower.getLast?.getD 0)
          / last_pred_price t) * 100 ∧
    (confidence_level w = "High" ↔ w < 10) ∧
    (confidence_level w = "Medium" ↔ 10 ≤ w ∧ w < 20) ∧
    (confidence_level w = "Low" ↔ 20 ≤ w) := by
  refine ⟨rfl, rfl, ?_, ?_, ?_⟩
  · unfold confidence_level
    split_ifs with h1 h2
    · exact ⟨fun _ => h1, fun _ => rfl⟩
    · exact ⟨fun h => absurd h (by decide), fun h => absurd h h1⟩
    · exact ⟨fun h => absurd h (by decide), fun h => absurd h h1⟩
  · unfold confidence_level
    split_ifs with h1 h2
    · exact ⟨fun h => absurd h (by decide),
        fun h => absurd h1 (not_lt.mpr h.1)⟩
    · exact ⟨fun _ => ⟨not_lt.mp h1, h2⟩, fun _ => rfl⟩
    · exact ⟨fun h => absurd h (by decide), fun h => absurd h.2 h2⟩
  · unfold confidence_level
    split_ifs with h1 h2
    · exact ⟨fun h => absurd h (by decide),
        fun h => absurd h1 (not_lt.mpr (by linarith))⟩
    · exact ⟨fun h => absurd h (by decide), fun h => absurd h2 (not_lt.mpr h)⟩
    · exact ⟨fun _ => not_lt.mp h2, fun _ => rfl⟩

/-- C8 counterexample: a raw table of 30 rows whose closes are all missing
cleans to the empty series, yet the forecast section still runs (the
fallback executes on the empty series) — downstream computation is not
skipped and no empty-series failure is raised. -/
theorem empty_series_counterexample :
    close_series (List.replicate 30 (none : Option ℚ)) = [] ∧
    (runPipeline none (List.replicate 30 (none : Option ℚ)) 0).forecast.isSome
      = true := by
  constructor
  · decide
  · rw [runPipeline_forecast]
    simp

/-- C8 (amended): an all-missing close column cleans to the empty series;
the code raises no empty-series failure — decomposition is skipped through
its generic length guard, whose condition carries required length 60 and
actual length 0, while forecasting is still attempted exactly when the raw
table has at least 30 rows (running the fallback on the empty series). -/
theorem empty_series_behaviour (fitRes : Option SarimaxFit)
    (raw : List (Option ℚ)) (d : ℕ) (hall : ∀ x ∈ raw, x = none) :
    close_series raw = [] ∧
    (runPipeline fitRes raw d).decompRan = false ∧
    (runPipeline fitRes raw d).decompError = some (60, 0) ∧
    ((runPipeline fitRes raw d).forecast.isSome = true ↔
      30 ≤ raw.length) := by
  have hdrop : dropna raw = [] := by
    simp only [dropna, List.filterMap_eq_nil_iff, id]
    exact hall
  have hcs : close_series raw = [] := by
    rw [close_series, hdrop]
    rfl
  refine ⟨hcs, ?_, ?_, ?_⟩
  · rw [runPipeline_decompRan, hcs]
    decide
  · rw [runPipeline_decompError, hcs]
    rfl
  · rw [runPipeline_forecast]
    split <;> rename_i h <;> simp <;> omega

/-- Witness for C8 at a 5-row all-missing column (forecasting skipped too,
because the raw row count is below 30). -/
theorem empty_series_behaviour_witness :
    close_series (List.replicate 5 (none : Option ℚ)) = [] ∧
    (runPipeline none (List.replicate 5 (none : Option ℚ)) 0).decompRan
      = false ∧
    (runPipeline none (List.replicate 5 (none : Option ℚ)) 0).decompError
      = some (60, 0) ∧
    ((runPipeline none (List.replicate 5 (none : Option ℚ)) 0).forecast.isSome
        = true ↔ 30 ≤ (List.replicate 5 (none : Option ℚ)).length) :=
  empty_series_behaviour none (List.replicate 5 none) 0
    (fun _ hx => List.eq_of_mem_replicate hx)

lemma getLast?_replicate_30 (a : ℚ) :
    (List.replicate 30 a).getLast? = some a := by
  rw [show (30 : ℕ) = 29 + 1 from rfl]
  exact getLast?_replicate_succ 29 a

/-- C10: a fallback forecast whose trailing-10 mean is strictly positive
always has confidence width exactly `(1.05·v - 0.95·v) / v * 100 = 10`, so
its bucket is exactly "Medium" — never "High" or "Low". -/
theorem fallback_confidence_medium (series : List ℚ)
    (hv : 0 < trailingMean series) :
    confidence_width (fit_sarima_model none series 30).1 = 10 ∧
    confidence_level (confidence_width (fit_sarima_model none series 30).1)
      = "Medium" := by
  have hne : trailingMean series ≠ 0 := ne_of_gt hv
  have hup : (fit_sarima_model none series 30).1.upper.getLast?.getD 0
      = trailingMean series * 1.05 := by
    simp only [fit_sarima_model, List.map_replicate, getLast?_replicate_30]
    rfl
  have hlo : (fit_sarima_model none series 30).1.lower.getLast?.getD 0
      = trailingMean series * 0.95 := by
    simp only [fit_sarima_model, List.map_replicate, getLast?_replicate_30]
    rfl
  have hpr : last_pred_price (fit_sarima_model none series 30).1
      = trailingMean series := by
    simp only [last_pred_price, fit_sarima_model, getLast?_replicate_30]
    rfl
  have hw : confidence_width (fit_sarima_model none series 30).1 = 10 := by
    rw [confidence_width, hup, hlo, hpr]
    field_simp
    ring
  refine ⟨hw, ?_⟩
  rw [hw]
  norm_num [confidence_level]

/-- Witness for C10 at the one-point series `[1]`. -/
theorem fallback_confidence_medium_witness :
    confidence_width (fit_sarima_model none [(1 : ℚ)] 30).1 = 10 ∧
    confidence_level
        (confidence_width (fit_sarima_model none [(1 : ℚ)] 30).1)
      = "Medium" :=
  fallback_confidence_medium [(1 : ℚ)] (by norm_num [trailingMean])

end StockAnalyser
